import Mathlib

/-!
Shallow embedding of the wgltf scene-to-GPU compiler and render loop
(src/utils/mod.rs, src/state.rs, src/main.rs), together with theorems that
check the specification's claims about the format translator, the one-time
compile pass, the resize and render-error handlers, and the fixed-timestep
clock.  Rust panics and propagated `Result` errors are both modelled as
`Option.none`; GPU handles (buffers, pipelines, bind groups) are modelled by
the data they were created from (byte ranges, layout descriptions), since the
handles themselves are opaque.  The fixed-timestep arithmetic, `f64` in the
source, is modelled over exact rationals.
-/

namespace Wgltf

/-- gltf::accessor::DataType — the component types an accessor can carry. -/
inductive DataType
  | I8 | U8 | I16 | U16 | U32 | F32
  deriving DecidableEq

/-- gltf::accessor::Dimensions — scalar, vector or matrix element shape. -/
inductive Dimensions
  | Scalar | Vec2 | Vec3 | Vec4 | Mat2 | Mat3 | Mat4
  deriving DecidableEq

/-- The wgpu vertex formats reachable from accessor_type_to_format. -/
inductive VertexFormat
  | Snorm8x2 | Unorm8x2 | Snorm8x4 | Unorm8x4
  | Sint8x2 | Uint8x2 | Sint8x4 | Uint8x4
  | Snorm16x2 | Unorm16x2 | Snorm16x4 | Unorm16x4
  | Sint16x2 | Uint16x2 | Sint16x4 | Uint16x4
  | Float32 | Float32x2 | Float32x3 | Float32x4
  | Uint32 | Uint32x2 | Uint32x3 | Uint32x4
  deriving DecidableEq

/-- wgpu::IndexFormat. -/
inductive IndexFormat
  | Uint16 | Uint32
  deriving DecidableEq

/-- wgpu::PrimitiveTopology. -/
inductive PrimitiveTopology
  | PointList | LineList | LineStrip | TriangleList | TriangleStrip
  deriving DecidableEq

/-- gltf::mesh::Mode — the draw mode declared by a primitive. -/
inductive MeshMode
  | Points | Lines | LineLoop | LineStrip | Triangles | TriangleStrip | TriangleFan
  deriving DecidableEq

/-- A buffer view: which backing buffer it reads, its byte offset and length
inside that buffer, and an optional declared stride (state.rs uses
`buffer_view.stride()`). -/
structure BufferView where
  bufferIndex : Nat
  offset : Nat
  length : Nat
  stride : Option Nat
  deriving DecidableEq

/-- A typed view into a buffer (gltf::accessor::Accessor): optional buffer
view, byte offset inside the view, element count, component type,
dimensionality and normalization flag. -/
structure Accessor where
  view : Option BufferView
  offset : Nat
  count : Nat
  dataType : DataType
  dimensions : Dimensions
  normalized : Bool
  deriving DecidableEq

/-- utils/mod.rs `component_type_to_index_format`: U16 and U32 translate,
every other component type hits the `Unsupported index format` panic,
modelled as `none`. -/
def component_type_to_index_format : DataType → Option IndexFormat
  | .U16 => some .Uint16
  | .U32 => some .Uint32
  | _ => none

/-- utils/mod.rs `size_of_component_type`: byte size of one component
(`size_of` of the matching Rust scalar type). -/
def size_of_component_type : DataType → Nat
  | .I8 => 1
  | .U8 => 1
  | .I16 => 2
  | .U16 => 2
  | .U32 => 4
  | .F32 => 4

/-- utils/mod.rs `align_of_component_type`: per-dimensionality multiplier. -/
def align_of_component_type : Dimensions → Nat
  | .Scalar => 1
  | .Vec2 => 2
  | .Vec3 => 3
  | .Vec4 => 4
  | .Mat2 => 4
  | .Mat3 => 16
  | .Mat4 => 16

/-- utils/mod.rs `stride_of_component_type`: default stride of an accessor,
component size times dimensionality multiplier. -/
def stride_of_component_type (accessor : Accessor) : Nat :=
  size_of_component_type accessor.dataType * align_of_component_type accessor.dimensions

/-- utils/mod.rs `accessor_type_to_format`: translation from (normalized,
dimensions, data type) to a wgpu vertex format; the final wildcard arm is the
`Unsupported vertex format` panic, modelled as `none`.  The arm order and the
right-hand sides reproduce the source exactly, including the
`(false, Vec4, U8) => Sint8x4` arm of line 66. -/
def accessor_type_to_format (accessor : Accessor) : Option VertexFormat :=
  match accessor.normalized, accessor.dimensions, accessor.dataType with
  | true, .Vec2, .I8 => some .Snorm8x2
  | true, .Vec2, .U8 => some .Unorm8x2
  | true, .Vec4, .I8 => some .Snorm8x4
  | true, .Vec4, .U8 => some .Unorm8x4
  | false, .Vec2, .I8 => some .Sint8x2
  | false, .Vec2, .U8 => some .Uint8x2
  | false, .Vec4, .I8 => some .Sint8x4
  | false, .Vec4, .U8 => some .Sint8x4
  | true, .Vec2, .I16 => some .Snorm16x2
  | true, .Vec2, .U16 => some .Unorm16x2
  | true, .Vec4, .I16 => some .Snorm16x4
  | true, .Vec4, .U16 => some .Unorm16x4
  | false, .Vec2, .I16 => some .Sint16x2
  | false, .Vec2, .U16 => some .Uint16x2
  | false, .Vec4, .I16 => some .Sint16x4
  | false, .Vec4, .U16 => some .Uint16x4
  | _, .Scalar, .F32 => some .Float32
  | _, .Vec2, .F32 => some .Float32x2
  | _, .Vec3, .F32 => some .Float32x3
  | _, .Vec4, .F32 => some .Float32x4
  | _, .Scalar, .U32 => some .Uint32
  | _, .Vec2, .U32 => some .Uint32x2
  | _, .Vec3, .U32 => some .Uint32x3
  | _, .Vec4, .U32 => some .Uint32x4
  | _, _, _ => none

/-- utils/mod.rs `mesh_mode_to_topology`: LineLoop hits `todo` and aborts,
modelled as `none`. -/
def mesh_mode_to_topology : MeshMode → Option PrimitiveTopology
  | .Triangles => some .TriangleList
  | .TriangleStrip => some .TriangleStrip
  | .TriangleFan => some .TriangleStrip
  | .Lines => some .LineList
  | .LineStrip => some .LineStrip
  | .Points => some .PointList
  | .LineLoop => none

/-- Spec §4.1: the documented vertex-format table.  Normalized 8- and 16-bit
int vec2/vec4 map to Snorm/Unorm variants, unnormalized ones to Sint/Uint
variants, 32-bit float scalar..vec4 to Float32*, 32-bit unsigned int
scalar..vec4 to Uint32*; every other combination is unsupported. -/
def vertexFormatSpec : Bool → Dimensions → DataType → Option VertexFormat
  | true, .Vec2, .I8 => some .Snorm8x2
  | true, .Vec2, .U8 => some .Unorm8x2
  | true, .Vec4, .I8 => some .Snorm8x4
  | true, .Vec4, .U8 => some .Unorm8x4
  | false, .Vec2, .I8 => some .Sint8x2
  | false, .Vec2, .U8 => some .Uint8x2
  | false, .Vec4, .I8 => some .Sint8x4
  | false, .Vec4, .U8 => some .Uint8x4
  | true, .Vec2, .I16 => some .Snorm16x2
  | true, .Vec2, .U16 => some .Unorm16x2
  | true, .Vec4, .I16 => some .Snorm16x4
  | true, .Vec4, .U16 => some .Unorm16x4
  | false, .Vec2, .I16 => some .Sint16x2
  | false, .Vec2, .U16 => some .Uint16x2
  | false, .Vec4, .I16 => some .Sint16x4
  | false, .Vec4, .U16 => some .Uint16x4
  | _, .Scalar, .F32 => some .Float32
  | _, .Vec2, .F32 => some .Float32x2
  | _, .Vec3, .F32 => some .Float32x3
  | _, .Vec4, .F32 => some .Float32x4
  | _, .Scalar, .U32 => some .Uint32
  | _, .Vec2, .U32 => some .Uint32x2
  | _, .Vec3, .U32 => some .Uint32x3
  | _, .Vec4, .U32 => some .Uint32x4
  | _, _, _ => none

/-- Spec §4.1 `sizeOfComponent`: 1 byte for 8-bit types, 2 for 16-bit,
4 for 32-bit int or float. -/
def sizeOfComponentSpec : DataType → Nat
  | .I8 => 1
  | .U8 => 1
  | .I16 => 2
  | .U16 => 2
  | .U32 => 4
  | .F32 => 4

/-- Spec §4.1 `alignOfDimension`: scalar=1, vec2=2, vec3=3, vec4=4, mat2=4,
mat3=16, mat4=16. -/
def alignOfDimensionSpec : Dimensions → Nat
  | .Scalar => 1
  | .Vec2 => 2
  | .Vec3 => 3
  | .Vec4 => 4
  | .Mat2 => 4
  | .Mat3 => 16
  | .Mat4 => 16

/-- Spec §4.1 `indexFormatOf`: 16-bit unsigned to the 2-byte format, 32-bit
unsigned to the 4-byte format, everything else unsupported. -/
def indexFormatSpec : DataType → Option IndexFormat
  | .U16 => some .Uint16
  | .U32 => some .Uint32
  | _ => none

/-- Byte width of a wgpu index format (2 bytes for Uint16 indices, 4 for
Uint32), used to connect `IndexFormat` to the spec's byte-size wording. -/
def indexFormatByteSize : IndexFormat → Nat
  | .Uint16 => 2
  | .Uint32 => 4

/-- Spec §4.1 `topologyOf`: triangle list kept, strip and fan folded into
triangle strip, line list/strip and points kept, line-loop unsupported. -/
def topologySpec : MeshMode → Option PrimitiveTopology
  | .Triangles => some .TriangleList
  | .TriangleStrip => some .TriangleStrip
  | .TriangleFan => some .TriangleStrip
  | .Lines => some .LineList
  | .LineStrip => some .LineStrip
  | .Points => some .PointList
  | .LineLoop => none

/-- gltf::Semantic — the attribute semantics a primitive can declare. -/
inductive Semantic
  | Positions
  | Normals
  | Tangents
  | Colors (set : Nat)
  | TexCoords (set : Nat)
  | Joints (set : Nat)
  | Weights (set : Nat)
  deriving DecidableEq

/-- state.rs `ShaderLocation::new`: Positions bind at shader location 0,
Normals at 1, all other semantics are skipped. -/
def ShaderLocation.new : Semantic → Option Nat
  | .Positions => some 0
  | .Normals => some 1
  | _ => none

/-- Number of components of one element, per the gltf crate's
`Dimensions::multiplicity` (a dependency of this repository): used by
`Accessor::size`. -/
def multiplicity : Dimensions → Nat
  | .Scalar => 1
  | .Vec2 => 2
  | .Vec3 => 3
  | .Vec4 => 4
  | .Mat2 => 4
  | .Mat3 => 9
  | .Mat4 => 16

/-- Byte size of one accessor element, per the gltf crate's
`Accessor::size` (component size times component count). -/
def Accessor.size (a : Accessor) : Nat :=
  size_of_component_type a.dataType * multiplicity a.dimensions

/-- One drawable piece of a mesh: attribute semantics with their accessors,
an optional index accessor, and a draw mode. -/
structure Primitive where
  attributes : List (Semantic × Accessor)
  indices : Option Accessor
  mode : MeshMode
  deriving DecidableEq

/-- A mesh is a list of primitives; `Primitive.index()` is the position in
this list. -/
structure Mesh where
  primitives : List Primitive
  deriving DecidableEq

/-- A scene node: `mesh` is the index of its mesh in the document's mesh
list, if any.  The node's transform matrix only feeds the GPU uniform buffer
(an opaque handle) and is not inspected by any claim, so it is omitted. -/
structure Node where
  mesh : Option Nat
  deriving DecidableEq

/-- The parsed document: `Node.index()` and `Mesh.index()` are positions in
these lists, matching the gltf crate's enumeration order. -/
structure Document where
  nodes : List Node
  meshes : List Mesh
  deriving DecidableEq

/-- state.rs `GltfScene`: the document plus the materialized buffer blobs.
Only the byte length of each blob is relevant to the compile pass, so each
buffer is modelled by its length. -/
structure GltfScene where
  document : Document
  buffers : List Nat
  deriving DecidableEq

/-- state.rs `GltfScene::data_of_accessor`: resolve accessor -> buffer view
-> backing buffer and compute the absolute byte range.  The two Rust slice
expressions panic when out of range, modelled as `none`; a missing view is
the `Accessor has no buffer view` error.  Returns (absolute start, byte
length). -/
def data_of_accessor (scene : GltfScene) (accessor : Accessor) : Option (Nat × Nat) := do
  let buffer_view ← accessor.view
  let buffer_len ← scene.buffers[buffer_view.bufferIndex]?
  if buffer_view.offset + buffer_view.length ≤ buffer_len then
    if accessor.offset + accessor.count * accessor.size ≤ buffer_view.length then
      some (buffer_view.offset + accessor.offset, accessor.count * accessor.size)
    else
      none
  else
    none

/-- wgpu::VertexStepMode (the compile pass always uses Vertex). -/
inductive VertexStepMode
  | Vertex | Instance
  deriving DecidableEq

/-- The per-attribute layout recorded by the compile pass (state.rs's local
`VertexLayout` struct). -/
structure VertexLayout where
  array_stride : Nat
  step_mode : VertexStepMode
  deriving DecidableEq

/-- wgpu::VertexAttribute as filled in by the compile pass. -/
structure VertexAttribute where
  format : VertexFormat
  offset : Nat
  shader_location : Nat
  deriving DecidableEq

/-- wgpu::VertexBufferLayout: one per attribute buffer, holding a singleton
attribute list. -/
structure VertexBufferLayout where
  array_stride : Nat
  step_mode : VertexStepMode
  attributes : List VertexAttribute
  deriving DecidableEq

/-- The data a per-primitive render pipeline is created from: its vertex
buffer layouts and its primitive topology (the remaining fields of the
descriptor are constants). -/
structure Pipeline where
  vertex_buffers : List VertexBufferLayout
  topology : PrimitiveTopology
  deriving DecidableEq

/-- state.rs `DrawMode`: non-indexed with a vertex count, or indexed with
the index buffer (modelled by its source byte range), byte offset, index
format and index count. -/
inductive DrawMode
  | Normal (draw_count : Nat)
  | Indexed (buffer : Nat × Nat) (offset : Nat) (ty : IndexFormat) (draw_count : Nat)
  deriving DecidableEq

/-- state.rs `GpuPrimitive`: compiled pipeline, one vertex buffer per kept
attribute (modelled by source byte ranges), and the draw mode. -/
structure GpuPrimitive where
  pipeline : Pipeline
  buffers : List (Nat × Nat)
  draw_mode : DrawMode
  deriving DecidableEq

/-- The attribute loop of State::new (state.rs lines 280-308): skip
attributes with no buffer view, skip unsupported semantics, record stride,
format and byte range for the rest, and overwrite `draw_count` with each
processed accessor's element count.  A vertex-format panic or an
out-of-range byte slice fails the whole pass. -/
def attrLoop (scene : GltfScene) :
    List (Semantic × Accessor) → Nat →
    Option (List VertexLayout × List (List VertexAttribute) × List (Nat × Nat) × Nat)
  | [], draw_count => some ([], [], [], draw_count)
  | (semantic, accessor) :: rest, draw_count =>
    match accessor.view with
    | none => attrLoop scene rest draw_count
    | some buffer_view =>
      match ShaderLocation.new semantic with
      | none => attrLoop scene rest draw_count
      | some shader_location => do
        let array_stride := buffer_view.stride.getD (stride_of_component_type accessor)
        let format ← accessor_type_to_format accessor
        let range ← data_of_accessor scene accessor
        let (layouts, attrs, buffers, dcOut) ← attrLoop scene rest accessor.count
        some (⟨array_stride, .Vertex⟩ :: layouts,
              [⟨format, accessor.offset, shader_location⟩] :: attrs,
              range :: buffers,
              dcOut)

/-- state.rs lines 310-318: zip the recorded layouts with their singleton
attribute lists into wgpu vertex buffer layouts. -/
def mkVertexBuffers (layouts : List VertexLayout)
    (attrs : List (List VertexAttribute)) : List VertexBufferLayout :=
  layouts.zipWith (fun l a => ⟨l.array_stride, l.step_mode, a⟩) attrs

/-- Compilation of one primitive (the body of the primitive loop in
State::new): run the attribute loop, translate the topology (a line-loop
aborts), then select the draw mode — indexed when an index accessor is
declared (resolving its bytes and index format), non-indexed with the
last-processed attribute count otherwise. -/
def compilePrimitive (scene : GltfScene) (prim : Primitive) : Option GpuPrimitive := do
  let (layouts, attrs, buffers, draw_count) ← attrLoop scene prim.attributes 0
  let topology ← mesh_mode_to_topology prim.mode
  let pipeline : Pipeline := ⟨mkVertexBuffers layouts attrs, topology⟩
  match prim.indices with
  | none => some ⟨pipeline, buffers, .Normal draw_count⟩
  | some idx => do
      let range ← data_of_accessor scene idx
      let ty ← component_type_to_index_format idx.dataType
      some ⟨pipeline, buffers, .Indexed range idx.offset ty idx.count⟩

/-- Inner primitive loop of State::new: compile each primitive of one mesh,
keying it by (mesh index, primitive index).  The keys are pairwise distinct,
so the HashMap is modelled as an insertion-ordered association list. -/
def compilePrims (scene : GltfScene) (mi : Nat) :
    Nat → List Primitive → Option (List ((Nat × Nat) × GpuPrimitive))
  | _, [] => some []
  | pj, p :: rest => do
      let gp ← compilePrimitive scene p
      let tail ← compilePrims scene mi (pj + 1) rest
      some (((mi, pj), gp) :: tail)

/-- Outer mesh loop of State::new. -/
def compileMeshes (scene : GltfScene) :
    Nat → List Mesh → Option (List ((Nat × Nat) × GpuPrimitive))
  | _, [] => some []
  | mi, mesh :: rest => do
      let head ← compilePrims scene mi 0 mesh.primitives
      let tail ← compileMeshes scene (mi + 1) rest
      some (head ++ tail)

/-- state.rs `primitive_data` (State::new lines 269-379): the compiled
primitive table. -/
def primitive_data (scene : GltfScene) : Option (List ((Nat × Nat) × GpuPrimitive)) :=
  compileMeshes scene 0 scene.document.meshes

/-- The node loop of State::new (state.rs lines 237-254): walk the nodes in
document order, keeping the index of every node that has a mesh.  The bind
group stored per key is an opaque GPU handle, so the table is modelled by
its key list. -/
def nodeLoop : Nat → List Node → List Nat
  | _, [] => []
  | i, n :: rest =>
    if n.mesh.isSome then i :: nodeLoop (i + 1) rest
    else nodeLoop (i + 1) rest

/-- state.rs `node_data`: keys of the node-binding table. -/
def node_data (doc : Document) : List Nat :=
  nodeLoop 0 doc.nodes

/-- The per-key lookup of State::render_mesh (state.rs lines 531-535):
`nodes().nth(node).unwrap()` followed by `.mesh().unwrap()`, returning the
mesh index when both succeed. -/
def render_node_lookup (doc : Document) (i : Nat) : Option Nat :=
  doc.nodes[i]?.bind Node.mesh

/-- Whether a primitive declares a position attribute (the filter the spec's
primitive-table invariant is phrased with). -/
def hasPositionAttribute (p : Primitive) : Bool :=
  p.attributes.any (fun sa => decide (sa.1 = Semantic.Positions))

/-- Number of (mesh, primitive) pairs that declare a position attribute —
the `P` of the spec's compiler-completeness property. -/
def positionPairCount (doc : Document) : Nat :=
  (doc.meshes.map (fun m => (m.primitives.filter hasPositionAttribute).length)).sum

/-- Total number of (mesh, primitive) pairs in the document. -/
def totalPrimitiveCount (doc : Document) : Nat :=
  (doc.meshes.map (fun m => m.primitives.length)).sum

/-- Element count of the last attribute the compile pass processes (one that
has a buffer view and a supported semantic), starting from a provisional
count — the value the non-indexed draw count actually takes. -/
def lastSupportedCount : List (Semantic × Accessor) → Nat → Nat
  | [], draw_count => draw_count
  | (semantic, accessor) :: rest, draw_count =>
    if accessor.view.isSome && (ShaderLocation.new semantic).isSome then
      lastSupportedCount rest accessor.count
    else
      lastSupportedCount rest draw_count

/-- Element count of the primitive's position accessor, when it has one —
what the claim says the non-indexed draw count equals. -/
def positionAccessorCount (p : Primitive) : Option Nat :=
  (p.attributes.find? (fun sa => decide (sa.1 = Semantic.Positions))).map
    (fun sa => sa.2.count)

/-- The keys the compiled-primitive table should hold, starting at mesh
index `mi`: every (mesh index, primitive index) pair in document order. -/
def allKeysFrom : Nat → List Mesh → List (Nat × Nat)
  | _, [] => []
  | mi, m :: rest =>
    (List.range m.primitives.length).map (fun j => (mi, j)) ++ allKeysFrom (mi + 1) rest

/-- wgpu::SurfaceError — the acquisition failures render_mesh can report. -/
inductive SurfaceError
  | Timeout | Outdated | Lost | OutOfMemory
  deriving DecidableEq

/-- The mutable state the resize and render-error handlers touch: the
surface configuration's dimensions, the dimensions and generation of the
configured surface and of the depth target (a generation counter ticks every
time the GPU object is recreated), the camera's aspect input, and the event
loop's redraw/exit flags plus the error log. -/
structure RenderLoopState where
  configW : Nat
  configH : Nat
  surfaceW : Nat
  surfaceH : Nat
  surfaceGen : Nat
  depthW : Nat
  depthH : Nat
  depthGen : Nat
  cameraAspectW : Nat
  cameraAspectH : Nat
  redrawRequested : Bool
  exitRequested : Bool
  loggedErrors : List SurfaceError
  deriving DecidableEq

/-- `surface.configure(&device, &surface_config)`: the surface takes the
configuration's current dimensions and is recreated. -/
def configureSurface (s : RenderLoopState) : RenderLoopState :=
  { s with surfaceW := s.configW, surfaceH := s.configH, surfaceGen := s.surfaceGen + 1 }

/-- state.rs `create_depth_framebuffer`: a fresh depth texture sized to the
surface configuration's current width/height. -/
def create_depth_framebuffer (s : RenderLoopState) : RenderLoopState :=
  { s with depthW := s.configW, depthH := s.configH, depthGen := s.depthGen + 1 }

/-- state.rs `State::resize` (lines 446-454): write the new dimensions into
the surface configuration, reconfigure the surface, recreate the depth
framebuffer, and update the camera aspect. -/
def resize (s : RenderLoopState) (width height : Nat) : RenderLoopState :=
  let s := { s with configW := width, configH := height }
  let s := configureSurface s
  let s := create_depth_framebuffer s
  { s with cameraAspectW := width, cameraAspectH := height }

/-- main.rs Resized handler (lines 40-52): forward to State::resize only
when both dimensions are nonzero. -/
def resizeEvent (s : RenderLoopState) (width height : Nat) : RenderLoopState :=
  if width ≠ 0 ∧ height ≠ 0 then resize s width height else s

/-- main.rs render_mesh error match (lines 70-84): every error is printed;
Lost and Outdated reconfigure the surface (with the unchanged configuration)
and request a redraw, OutOfMemory exits the loop, anything else is
dropped. -/
def handleRenderError (err : SurfaceError) (s : RenderLoopState) : RenderLoopState :=
  let s := { s with loggedErrors := err :: s.loggedErrors }
  match err with
  | .Lost | .Outdated =>
      let s := configureSurface s
      { s with redrawRequested := true }
  | .OutOfMemory => { s with exitRequested := true }
  | .Timeout => s

/-- main.rs constant UPDATES_PER_SECOND. -/
def UPDATES_PER_SECOND : Int := 60

/-- main.rs constant MAX_FRAME_TIME (0.1 seconds). -/
def MAX_FRAME_TIME : ℚ := 1 / 10

/-- main.rs constant FIXED_TIME_STEP = 1 / UPDATES_PER_SECOND. -/
def FIXED_TIME_STEP : ℚ := 1 / (UPDATES_PER_SECOND : ℚ)

/-- main.rs lines 58-60: clamp the wall-clock delta to MAX_FRAME_TIME. -/
def clampElapsed (elapsed : ℚ) : ℚ :=
  if elapsed > MAX_FRAME_TIME then MAX_FRAME_TIME else elapsed

/-- The catch-up loop of main.rs lines 63-68: while the accumulator holds at
least one fixed step, run one update and subtract the step.  Returns the
number of update invocations and the final accumulator value. -/
def stepLoop (accumulated_time : ℚ) : Nat × ℚ :=
  if h : FIXED_TIME_STEP ≤ accumulated_time then
    let rest := stepLoop (accumulated_time - FIXED_TIME_STEP)
    (rest.1 + 1, rest.2)
  else
    (0, accumulated_time)
termination_by (⌊accumulated_time / FIXED_TIME_STEP⌋).toNat
decreasing_by
  have hS : (0 : ℚ) < FIXED_TIME_STEP := by
    norm_num [FIXED_TIME_STEP, UPDATES_PER_SECOND]
  have hSne : FIXED_TIME_STEP ≠ 0 := ne_of_gt hS
  have hsub : (accumulated_time - FIXED_TIME_STEP) / FIXED_TIME_STEP
      = accumulated_time / FIXED_TIME_STEP - 1 := by
    rw [sub_div, div_self hSne]
  have hfloor : ⌊accumulated_time / FIXED_TIME_STEP - 1⌋
      = ⌊accumulated_time / FIXED_TIME_STEP⌋ - 1 := by
    simp
  have hone : 1 ≤ ⌊accumulated_time / FIXED_TIME_STEP⌋ := by
    apply Int.le_floor.mpr
    push_cast
    rw [le_div_iff₀ hS]
    linarith
  simp only [hsub, hfloor]
  omega

/-- One RedrawRequested tick of main.rs (lines 53-69), restricted to the
clock: clamp the elapsed time, add it to the accumulator, and run the
catch-up loop. -/
def tick (accumulated_time elapsed : ℚ) : Nat × ℚ :=
  stepLoop (accumulated_time + clampElapsed elapsed)

/-- A render-loop state used as concrete input in witnesses. -/
def ex0 : RenderLoopState :=
  ⟨800, 600, 800, 600, 1, 800, 600, 1, 800, 600, false, false, []⟩

/-- A primitive with no attributes at all (in particular no position
attribute), non-indexed, triangle mode. -/
def exPrimNoAttrs : Primitive := ⟨[], none, .Triangles⟩

/-- A scene with two nodes (one with a mesh, one without) and one mesh whose
single primitive has no position attribute. -/
def exScene2 : GltfScene := ⟨⟨[⟨some 0⟩, ⟨none⟩], [⟨[exPrimNoAttrs]⟩]⟩, []⟩

/-- The compiled-primitive table of `exScene2` (the compile pass succeeds on
it, as the accompanying theorems establish). -/
def exTbl : List ((Nat × Nat) × GpuPrimitive) :=
  (primitive_data exScene2).getD []

/-- A position accessor: 24 vec3 float elements in buffer 0. -/
def exPosAccessor : Accessor := ⟨some ⟨0, 0, 288, none⟩, 0, 24, .F32, .Vec3, false⟩

/-- A normal accessor with a different element count: 7 vec3 float elements
in buffer 1. -/
def exNormAccessor : Accessor := ⟨some ⟨1, 0, 84, none⟩, 0, 7, .F32, .Vec3, false⟩

/-- A non-indexed primitive whose position accessor (24 elements) is
processed before its normal accessor (7 elements). -/
def exPrimPosNorm : Primitive :=
  ⟨[(.Positions, exPosAccessor), (.Normals, exNormAccessor)], none, .Triangles⟩

/-- Scene holding `exPrimPosNorm` with large enough buffers. -/
def exSceneC3 : GltfScene := ⟨⟨[⟨some 0⟩], [⟨[exPrimPosNorm]⟩]⟩, [288, 84]⟩

/-- A 16-bit index accessor with 36 elements in buffer 1. -/
def exIdxAccessor : Accessor := ⟨some ⟨1, 0, 72, none⟩, 0, 36, .U16, .Scalar, false⟩

/-- The spec's end-to-end fixture: one primitive, 24 position elements,
indexed by a 16-bit accessor of 36 indices. -/
def exPrimIndexed : Primitive :=
  ⟨[(.Positions, exPosAccessor)], some exIdxAccessor, .Triangles⟩

/-- Scene holding `exPrimIndexed`. -/
def exSceneC3i : GltfScene := ⟨⟨[⟨some 0⟩], [⟨[exPrimIndexed]⟩]⟩, [288, 72]⟩

/-- The compiled primitive of the indexed fixture. -/
def exGpIndexed : GpuPrimitive :=
  (compilePrimitive exSceneC3i exPrimIndexed).getD ⟨⟨[], .TriangleList⟩, [], .Normal 0⟩

/-- Membership in the node loop's key list: `i` is collected starting from
counter `k` exactly when some node at offset `j` has a mesh and `i = k + j`. -/
theorem nodeLoop_mem (ns : List Node) : ∀ k i : Nat,
    i ∈ nodeLoop k ns ↔ ∃ j n, ns[j]? = some n ∧ i = k + j ∧ n.mesh.isSome := by
  induction ns with
  | nil =>
      intro k i
      simp [nodeLoop]
  | cons x t ih =>
      intro k i
      by_cases hx : x.mesh.isSome
      · simp only [nodeLoop, hx, if_true, List.mem_cons]
        constructor
        · rintro (rfl | hmem)
          · exact ⟨0, x, by simp, by omega, hx⟩
          · obtain ⟨j, n, hj, hi, hn⟩ := (ih (k + 1) i).mp hmem
            exact ⟨j + 1, n, by simpa using hj, by omega, hn⟩
        · rintro ⟨j, n, hj, hi, hn⟩
          cases j with
          | zero =>
              left
              omega
          | succ j =>
              right
              exact (ih (k + 1) i).mpr ⟨j, n, by simpa using hj, by omega, hn⟩
      · simp only [nodeLoop, hx, if_false]
        constructor
        · intro hmem
          obtain ⟨j, n, hj, hi, hn⟩ := (ih (k + 1) i).mp hmem
          exact ⟨j + 1, n, by simpa using hj, by omega, hn⟩
        · rintro ⟨j, n, hj, hi, hn⟩
          cases j with
          | zero =>
              have hxn : x = n := by simpa using hj
              subst hxn
              exact absurd hn hx
          | succ j =>
              exact (ih (k + 1) i).mpr ⟨j, n, by simpa using hj, by omega, hn⟩

/-- The node loop collects one key per node with a mesh. -/
theorem nodeLoop_length (ns : List Node) : ∀ k : Nat,
    (nodeLoop k ns).length = (ns.filter (fun n => n.mesh.isSome)).length := by
  induction ns with
  | nil => intro k; simp [nodeLoop]
  | cons x t ih =>
      intro k
      by_cases hx : x.mesh.isSome
      · simp [nodeLoop, hx, List.filter_cons, ih]
      · simp [nodeLoop, hx, List.filter_cons, ih]

/-- The inner primitive loop keys its output by consecutive primitive
indices. -/
theorem compilePrims_keys (scene : GltfScene) (mi : Nat) :
    ∀ (ps : List Primitive) (pj : Nat) (l : List ((Nat × Nat) × GpuPrimitive)),
      compilePrims scene mi pj ps = some l →
      l.map Prod.fst = (List.range ps.length).map (fun j => (mi, pj + j)) := by
  intro ps
  induction ps with
  | nil =>
      intro pj l h
      simp only [compilePrims, Option.some_inj] at h
      subst h
      simp
  | cons p rest ih =>
      intro pj l h
      rw [show compilePrims scene mi pj (p :: rest)
            = (compilePrimitive scene p).bind
                (fun gp => (compilePrims scene mi (pj + 1) rest).bind
                  (fun tail => some (((mi, pj), gp) :: tail))) from rfl] at h
      obtain ⟨gp, hgp, h⟩ := Option.bind_eq_some.mp h
      obtain ⟨tail, htail, h⟩ := Option.bind_eq_some.mp h
      obtain rfl := (Option.some_inj.mp h).symm
      simp only [List.map_cons, List.length_cons, List.range_succ_eq_map,
        List.map_map, Function.comp]
      congr 1
      rw [ih (pj + 1) tail htail]
      exact List.map_congr_left (fun a _ => by
        have hpa : pj + 1 + a = pj + (a + 1) := by omega
        show (mi, pj + 1 + a) = _
        rw [hpa]
        rfl)

/-- The outer mesh loop produces exactly the key list `allKeysFrom`. -/
theorem compileMeshes_keys (scene : GltfScene) :
    ∀ (ms : List Mesh) (mi : Nat) (tbl : List ((Nat × Nat) × GpuPrimitive)),
      compileMeshes scene mi ms = some tbl →
      tbl.map Prod.fst = allKeysFrom mi ms := by
  intro ms
  induction ms with
  | nil =>
      intro mi tbl h
      simp only [compileMeshes, Option.some_inj] at h
      subst h
      simp [allKeysFrom]
  | cons m rest ih =>
      intro mi tbl h
      rw [show compileMeshes scene mi (m :: rest)
            = (compilePrims scene mi 0 m.primitives).bind
                (fun head => (compileMeshes scene (mi + 1) rest).bind
                  (fun tail => some (head ++ tail))) from rfl] at h
      obtain ⟨head, hhead, h⟩ := Option.bind_eq_some.mp h
      obtain ⟨tail, htail, h⟩ := Option.bind_eq_some.mp h
      obtain rfl := (Option.some_inj.mp h).symm
      rw [List.map_append, compilePrims_keys scene mi m.primitives 0 head hhead,
        ih (mi + 1) tail htail]
      simp [allKeysFrom]

/-- Length of the expected key list: the total primitive count. -/
theorem allKeysFrom_length : ∀ (ms : List Mesh) (mi : Nat),
    (allKeysFrom mi ms).length = (ms.map (fun m => m.primitives.length)).sum := by
  intro ms
  induction ms with
  | nil => intro mi; simp [allKeysFrom]
  | cons m rest ih => intro mi; simp [allKeysFrom, ih]

/-- Membership in the expected key list. -/
theorem allKeysFrom_mem : ∀ (ms : List Mesh) (mi a b : Nat),
    (a, b) ∈ allKeysFrom mi ms ↔
      ∃ j m, ms[j]? = some m ∧ a = mi + j ∧ b < m.primitives.length := by
  intro ms
  induction ms with
  | nil => intro mi a b; simp [allKeysFrom]
  | cons m rest ih =>
      intro mi a b
      simp only [allKeysFrom, List.mem_append, List.mem_map, List.mem_range,
        Prod.mk.injEq, ih]
      constructor
      · rintro (⟨j, hj, rfl, rfl⟩ | ⟨j, m', hj, ha, hb⟩)
        · exact ⟨0, m, by simp, by omega, hj⟩
        · exact ⟨j + 1, m', by simpa using hj, by omega, hb⟩
      · rintro ⟨j, m', hj, rfl, hb⟩
        cases j with
        | zero =>
            left
            have hm : m = m' := by simpa using hj
            subst hm
            exact ⟨b, hb, by omega, rfl⟩
        | succ j =>
            right
            exact ⟨j, m', by simpa using hj, by omega, hb⟩

/-- The attribute loop's final provisional vertex count is the element count
of the last processed (viewed, supported) attribute. -/
theorem attrLoop_draw_count (scene : GltfScene) :
    ∀ (attrs : List (Semantic × Accessor)) (dc : Nat) res,
      attrLoop scene attrs dc = some res →
      res.2.2.2 = lastSupportedCount attrs dc := by
  intro attrs
  induction attrs with
  | nil =>
      intro dc res h
      simp only [attrLoop, Option.some_inj] at h
      subst h
      simp [lastSupportedCount]
  | cons sa rest ih =>
      intro dc res h
      obtain ⟨semantic, accessor⟩ := sa
      simp only [attrLoop] at h
      cases hv : accessor.view with
      | none =>
          rw [hv] at h
          simp only [lastSupportedCount, hv, Option.isSome_none, Bool.false_and,
            if_false]
          exact ih dc res h
      | some buffer_view =>
          rw [hv] at h
          cases hl : ShaderLocation.new semantic with
          | none =>
              rw [hl] at h
              simp only [lastSupportedCount, hv, hl, Option.isSome_some,
                Option.isSome_none, Bool.and_false, if_false]
              exact ih dc res h
          | some shader_location =>
              rw [hl] at h
              obtain ⟨fmt, hfmt, h⟩ := Option.bind_eq_some.mp h
              obtain ⟨rng, hrng, h⟩ := Option.bind_eq_some.mp h
              obtain ⟨res4, hres4, h⟩ := Option.bind_eq_some.mp h
              obtain ⟨l4, a4, b4, d4⟩ := res4
              obtain rfl := (Option.some_inj.mp h).symm
              simp only [lastSupportedCount, hv, hl, Option.isSome_some,
                Bool.and_self, if_true]
              exact ih accessor.count (l4, a4, b4, d4) hres4

/-- Claim C1 (code_bug): the vertex-format translation agrees with the
documented table everywhere except at the single combination
(normalized = false, Vec4, U8), where the source returns Sint8x4 although
the table (and the symmetry of every other unsigned arm) requires Uint8x4 —
a copy-paste slip of the `(false, Vec4, I8)` arm directly above it. -/
theorem c1_vertex_format_table :
    (∀ a : Accessor,
      accessor_type_to_format a =
        if a.normalized = false ∧ a.dimensions = Dimensions.Vec4 ∧ a.dataType = DataType.U8
        then some VertexFormat.Sint8x4
        else vertexFormatSpec a.normalized a.dimensions a.dataType) ∧
    accessor_type_to_format ⟨none, 0, 0, DataType.U8, Dimensions.Vec4, false⟩
      = some VertexFormat.Sint8x4 ∧
    vertexFormatSpec false Dimensions.Vec4 DataType.U8 = some VertexFormat.Uint8x4 := by
  refine ⟨fun a => ?_, rfl, rfl⟩
  obtain ⟨v, o, c, ty, dims, nz⟩ := a
  cases nz <;> cases dims <;> cases ty <;> rfl

/-- Claim C7: for every accessor (all 6 component types crossed with all 7
dimensionalities), the computed default stride equals the documented
sizeOfComponent times alignOfDimension. -/
theorem c7_stride_table :
    ∀ a : Accessor,
      stride_of_component_type a
        = sizeOfComponentSpec a.dataType * alignOfDimensionSpec a.dimensions := by
  intro a
  obtain ⟨v, o, c, ty, dims, nz⟩ := a
  cases ty <;> cases dims <;> rfl

/-- Claim C8: the index-format translation maps 16-bit unsigned to the
2-byte index format and 32-bit unsigned to the 4-byte one, and fails for
every other component type. -/
theorem c8_index_format_table :
    (∀ ty : DataType, component_type_to_index_format ty = indexFormatSpec ty) ∧
    (component_type_to_index_format DataType.U16).map indexFormatByteSize = some 2 ∧
    (component_type_to_index_format DataType.U32).map indexFormatByteSize = some 4 := by
  refine ⟨fun ty => ?_, rfl, rfl⟩
  cases ty <;> rfl

/-- Claim C9: the topology translation maps triangle-list to triangle list,
both triangle-strip and triangle-fan to triangle strip, line-list/strip and
points to their list/strip equivalents, and fails fast on line-loop. -/
theorem c9_topology_table :
    ∀ mode : MeshMode, mesh_mode_to_topology mode = topologySpec mode := by
  intro mode
  cases mode <;> rfl

/-- Claim C2 counterexample: in `exScene2` no (mesh, primitive) pair has a
position attribute (P = 0), yet the compile pass succeeds and the
compiled-primitive table holds one entry — a pair with no position attribute
does produce an entry, contrary to the claim. -/
theorem c2_counterexample :
    positionPairCount exScene2.document = 0 ∧
    (primitive_data exScene2).map List.length = some 1 := ⟨rfl, rfl⟩

/-- Claim C2 as amended: when the compile pass succeeds, the
compiled-primitive table holds exactly one entry per (mesh, primitive) pair
of the document — whether or not the pair has a position attribute — each
reachable by its (mesh index, primitive index) key, and the node-binding
table holds exactly one entry per node with a mesh, keyed by node index. -/
theorem c2_compile_tables (scene : GltfScene) (tbl : List ((Nat × Nat) × GpuPrimitive))
    (h : primitive_data scene = some tbl) :
    tbl.length = totalPrimitiveCount scene.document ∧
    (∀ a b : Nat, ((a, b) ∈ tbl.map Prod.fst ↔
        ∃ m, scene.document.meshes[a]? = some m ∧ b < m.primitives.length)) ∧
    (node_data scene.document).length
      = (scene.document.nodes.filter (fun n => n.mesh.isSome)).length ∧
    (∀ i : Nat, (i ∈ node_data scene.document ↔
        ∃ n, scene.document.nodes[i]? = some n ∧ n.mesh.isSome)) := by
  have hkeys := compileMeshes_keys scene scene.document.meshes 0 tbl h
  refine ⟨?_, ?_, ?_, ?_⟩
  · have hlen := congrArg List.length hkeys
    simpa [allKeysFrom_length, totalPrimitiveCount] using hlen
  · intro a b
    rw [hkeys, allKeysFrom_mem]
    constructor
    · rintro ⟨j, m, hj, rfl, hb⟩
      exact ⟨m, by simpa using hj, hb⟩
    · rintro ⟨m, hm, hb⟩
      exact ⟨a, m, hm, by omega, hb⟩
  · simpa [node_data] using nodeLoop_length scene.document.nodes 0
  · intro i
    rw [show node_data scene.document = nodeLoop 0 scene.document.nodes from rfl,
      nodeLoop_mem]
    constructor
    · rintro ⟨j, n, hj, rfl, hn⟩
      exact ⟨n, by simpa using hj, hn⟩
    · rintro ⟨n, hn, hm⟩
      exact ⟨i, n, hn, by omega, hm⟩

/-- Witness for the amended C2 at the concrete scene `exScene2`, on which
the compile pass succeeds. -/
theorem c2_compile_tables_witness :
    exTbl.length = totalPrimitiveCount exScene2.document ∧
    (node_data exScene2.document).length
      = (exScene2.document.nodes.filter (fun n => n.mesh.isSome)).length := by
  have H := c2_compile_tables exScene2 exTbl rfl
  exact ⟨H.1, H.2.2.1⟩

/-- Claim C3 counterexample: for the non-indexed primitive whose position
accessor has 24 elements but whose normal accessor (processed last) has 7,
the compiled draw mode is Normal 7, not Normal 24 as the claim states. -/
theorem c3_counterexample :
    (compilePrimitive exSceneC3 exPrimPosNorm).map GpuPrimitive.draw_mode
        = some (DrawMode.Normal 7) ∧
    positionAccessorCount exPrimPosNorm = some 24 ∧ (7 : Nat) ≠ 24 :=
  ⟨rfl, rfl, by decide⟩

/-- Claim C3 as amended: when a primitive compiles successfully, an index
accessor of count K yields DrawMode.Indexed with draw count K, while a
primitive without one yields the non-indexed DrawMode whose count is the
element count of the last attribute processed in iteration order (one with
a buffer view and a supported semantic), not necessarily the position
accessor's count. -/
theorem c3_draw_mode (scene : GltfScene) (p : Primitive) (gp : GpuPrimitive)
    (h : compilePrimitive scene p = some gp) :
    (p.indices = none →
      gp.draw_mode = DrawMode.Normal (lastSupportedCount p.attributes 0)) ∧
    (∀ idx ty, p.indices = some idx →
      component_type_to_index_format idx.dataType = some ty →
      gp.draw_mode = DrawMode.Indexed ((data_of_accessor scene idx).getD (0, 0))
        idx.offset ty idx.count) := by
  simp only [compilePrimitive] at h
  cases hres : attrLoop scene p.attributes 0 with
  | none => rw [hres] at h; simp at h
  | some res =>
      obtain ⟨layouts, attrs, buffers, draw_count⟩ := res
      rw [hres] at h
      cases htop : mesh_mode_to_topology p.mode with
      | none => rw [htop] at h; simp at h
      | some topo =>
          rw [htop] at h
          have hdc : draw_count = lastSupportedCount p.attributes 0 :=
            attrLoop_draw_count scene p.attributes 0
              (layouts, attrs, buffers, draw_count) hres
          constructor
          · intro hnone
            rw [hnone] at h
            simp at h
            subst h
            exact congrArg DrawMode.Normal hdc
          · intro idx ty hidx hty
            rw [hidx] at h
            simp only [Option.bind_eq_bind, Option.some_bind] at h
            cases hrng : data_of_accessor scene idx with
            | none => rw [hrng] at h; simp at h
            | some rng =>
                rw [hrng, hty] at h
                simp at h
                subst h
                rfl

/-- Witness for the amended C3 at the spec's end-to-end fixture: one
primitive with 24 position elements, indexed by a 16-bit accessor of 36
indices, compiles to an indexed draw of count 36. -/
theorem c3_draw_mode_witness :
    exGpIndexed.draw_mode
      = DrawMode.Indexed ((data_of_accessor exSceneC3i exIdxAccessor).getD (0, 0))
        exIdxAccessor.offset IndexFormat.Uint16 exIdxAccessor.count ∧
    exIdxAccessor.count = 36 := by
  refine ⟨?_, rfl⟩
  exact (c3_draw_mode exSceneC3i exPrimIndexed exGpIndexed rfl).2
    exIdxAccessor IndexFormat.Uint16 rfl rfl

/-- Claim C10: every key of the node-binding table is the index of a node
that exists in the document and has a mesh, so the two unwraps in
render_mesh's per-key lookup cannot fail. -/
theorem c10_node_lookup (doc : Document) (i : Nat) (h : i ∈ node_data doc) :
    doc.nodes[i]?.isSome ∧ (render_node_lookup doc i).isSome := by
  obtain ⟨j, n, hj, hi, hn⟩ := (nodeLoop_mem doc.nodes 0 i).mp h
  have hij : i = j := by omega
  subst hij
  refine ⟨by simp [hj], ?_⟩
  rw [render_node_lookup, hj]
  simpa using hn

/-- Witness for C10: key 0 of `exScene2`'s node table resolves to a node
with a mesh. -/
theorem c10_node_lookup_witness :
    exScene2.document.nodes[0]?.isSome ∧
    (render_node_lookup exScene2.document 0).isSome :=
  c10_node_lookup exScene2.document 0 (by decide)

/-- Claim C4 counterexample: on SurfaceError.Lost the handler reconfigures
the surface (generation ticks) and requests a redraw, but the depth target
is not recreated — its generation is unchanged — contrary to the claim that
both are reconfigured. -/
theorem c4_counterexample :
    (handleRenderError SurfaceError.Lost ex0).surfaceGen = ex0.surfaceGen + 1 ∧
    (handleRenderError SurfaceError.Lost ex0).depthGen = ex0.depthGen ∧
    (handleRenderError SurfaceError.Lost ex0).redrawRequested = true :=
  ⟨rfl, rfl, rfl⟩

/-- Claim C4 as amended: every acquisition error is logged; Lost and
Outdated reconfigure only the surface, with the unchanged surface
configuration (the depth target is left as is — its dimensions still match
the unchanged configuration) and request a redraw for the next cycle;
OutOfMemory requests loop exit; any other error leaves the state otherwise
untouched. -/
theorem c4_render_error_spec (s : RenderLoopState) :
    handleRenderError SurfaceError.Lost s
      = { s with loggedErrors := SurfaceError.Lost :: s.loggedErrors,
                 surfaceW := s.configW, surfaceH := s.configH,
                 surfaceGen := s.surfaceGen + 1, redrawRequested := true } ∧
    handleRenderError SurfaceError.Outdated s
      = { s with loggedErrors := SurfaceError.Outdated :: s.loggedErrors,
                 surfaceW := s.configW, surfaceH := s.configH,
                 surfaceGen := s.surfaceGen + 1, redrawRequested := true } ∧
    handleRenderError SurfaceError.OutOfMemory s
      = { s with loggedErrors := SurfaceError.OutOfMemory :: s.loggedErrors,
                 exitRequested := true } ∧
    handleRenderError SurfaceError.Timeout s
      = { s with loggedErrors := SurfaceError.Timeout :: s.loggedErrors } :=
  ⟨rfl, rfl, rfl, rfl⟩

/-- Claim C6: a resize with both dimensions nonzero writes exactly (w, h)
into the surface configuration and recreates the surface and the depth
target with those same dimensions; a resize with a zero dimension leaves
the whole state (surface configuration, depth target, camera) unchanged. -/
theorem c6_resize_spec (s : RenderLoopState) (w h : Nat) :
    (w ≠ 0 → h ≠ 0 →
      ((resizeEvent s w h).configW = w ∧ (resizeEvent s w h).configH = h ∧
       (resizeEvent s w h).surfaceW = w ∧ (resizeEvent s w h).surfaceH = h ∧
       (resizeEvent s w h).depthW = w ∧ (resizeEvent s w h).depthH = h)) ∧
    (w = 0 ∨ h = 0 → resizeEvent s w h = s) := by
  constructor
  · intro hw hh
    have hcond : resizeEvent s w h = resize s w h := by
      rw [resizeEvent, if_pos ⟨hw, hh⟩]
    rw [hcond]
    exact ⟨rfl, rfl, rfl, rfl, rfl, rfl⟩
  · intro h0
    rw [resizeEvent, if_neg]
    rintro ⟨hw, hh⟩
    rcases h0 with h0 | h0
    · exact hw h0
    · exact hh h0

/-- Witness for C6 at concrete inputs: a 3x4 resize lands everywhere, a
zero-width resize is a no-op. -/
theorem c6_resize_witness :
    ((resizeEvent ex0 3 4).configW = 3 ∧ (resizeEvent ex0 3 4).configH = 4 ∧
     (resizeEvent ex0 3 4).surfaceW = 3 ∧ (resizeEvent ex0 3 4).surfaceH = 4 ∧
     (resizeEvent ex0 3 4).depthW = 3 ∧ (resizeEvent ex0 3 4).depthH = 4) ∧
    resizeEvent ex0 0 4 = ex0 :=
  ⟨(c6_resize_spec ex0 3 4).1 (by decide) (by decide),
   (c6_resize_spec ex0 0 4).2 (Or.inl rfl)⟩

/-- The fixed step 1/60 is positive. -/
theorem FIXED_TIME_STEP_pos : (0 : ℚ) < FIXED_TIME_STEP := by
  norm_num [FIXED_TIME_STEP, UPDATES_PER_SECOND]

/-- When the accumulator holds less than one step, the loop does not run
and leaves the accumulator alone. -/
theorem stepLoop_stop (a : ℚ) (ha : 0 ≤ a) (hlt : a < FIXED_TIME_STEP) :
    ((stepLoop a).1 : ℤ) = ⌊a / FIXED_TIME_STEP⌋ ∧
    0 ≤ (stepLoop a).2 ∧ (stepLoop a).2 < FIXED_TIME_STEP := by
  have hS := FIXED_TIME_STEP_pos
  have hfl : ⌊a / FIXED_TIME_STEP⌋ = 0 := by
    rw [Int.floor_eq_zero_iff]
    exact Set.mem_Ico.mpr ⟨div_nonneg ha hS.le, (div_lt_one hS).mpr hlt⟩
  have hstep : stepLoop a = (0, a) := by
    rw [stepLoop, dif_neg (not_le.mpr hlt)]
  rw [hstep]
  exact ⟨by simp [hfl], ha, hlt⟩

/-- The catch-up loop runs exactly floor(accumulator / step) times and
leaves a remainder in [0, step), by induction on a bound of the iteration
count. -/
theorem stepLoop_spec_aux : ∀ (n : Nat) (a : ℚ), 0 ≤ a →
    (⌊a / FIXED_TIME_STEP⌋).toNat ≤ n →
    ((stepLoop a).1 : ℤ) = ⌊a / FIXED_TIME_STEP⌋ ∧
    0 ≤ (stepLoop a).2 ∧ (stepLoop a).2 < FIXED_TIME_STEP := by
  intro n
  induction n with
  | zero =>
      intro a ha hn
      have hS := FIXED_TIME_STEP_pos
      have hlt : a < FIXED_TIME_STEP := by
        by_contra hcon
        push_neg at hcon
        have hone : (1 : ℤ) ≤ ⌊a / FIXED_TIME_STEP⌋ := by
          apply Int.le_floor.mpr
          push_cast
          rw [le_div_iff₀ hS]
          linarith
        omega
      exact stepLoop_stop a ha hlt
  | succ n ih =>
      intro a ha hn
      have hS := FIXED_TIME_STEP_pos
      by_cases hc : FIXED_TIME_STEP ≤ a
      · have ha' : 0 ≤ a - FIXED_TIME_STEP := by linarith
        have hfloor : ⌊(a - FIXED_TIME_STEP) / FIXED_TIME_STEP⌋
            = ⌊a / FIXED_TIME_STEP⌋ - 1 := by
          rw [sub_div, div_self (ne_of_gt hS)]
          simp
        have hone : (1 : ℤ) ≤ ⌊a / FIXED_TIME_STEP⌋ := by
          apply Int.le_floor.mpr
          push_cast
          rw [le_div_iff₀ hS]
          linarith
        have hn' : (⌊(a - FIXED_TIME_STEP) / FIXED_TIME_STEP⌋).toNat ≤ n := by
          omega
        obtain ⟨ih1, ih2, ih3⟩ := ih (a - FIXED_TIME_STEP) ha' hn'
        have hstep : stepLoop a
            = ((stepLoop (a - FIXED_TIME_STEP)).1 + 1,
               (stepLoop (a - FIXED_TIME_STEP)).2) := by
          rw [stepLoop, dif_pos hc]
        rw [hstep]
        refine ⟨?_, ih2, ih3⟩
        push_cast
        rw [ih1, hfloor]
        ring
      · exact stepLoop_stop a ha (not_le.mp hc)

/-- The catch-up loop runs exactly floor(accumulator / step) times. -/
theorem stepLoop_spec (a : ℚ) (ha : 0 ≤ a) :
    ((stepLoop a).1 : ℤ) = ⌊a / FIXED_TIME_STEP⌋ ∧
    0 ≤ (stepLoop a).2 ∧ (stepLoop a).2 < FIXED_TIME_STEP :=
  stepLoop_spec_aux (⌊a / FIXED_TIME_STEP⌋).toNat a ha le_rfl

/-- Claim C5: each tick first clamps the wall-clock delta to MAX_FRAME_TIME;
with pre-tick accumulator A and clamped elapsed E, the update step runs
exactly floor((A + E) / FIXED_TIME_STEP) times; the post-tick accumulator
lies in [0, step) and the interpolation fraction lies in [0, 1).  The f64
arithmetic of the source is modelled over exact rationals. -/
theorem c5_fixed_timestep (A e : ℚ) (hA : 0 ≤ A) (he : 0 ≤ e) :
    ((tick A e).1 : ℤ) = ⌊(A + clampElapsed e) / FIXED_TIME_STEP⌋ ∧
    0 ≤ (tick A e).2 ∧ (tick A e).2 < FIXED_TIME_STEP ∧
    0 ≤ (tick A e).2 / FIXED_TIME_STEP ∧ (tick A e).2 / FIXED_TIME_STEP < 1 ∧
    clampElapsed e ≤ MAX_FRAME_TIME := by
  have hS := FIXED_TIME_STEP_pos
  have hE : 0 ≤ clampElapsed e := by
    rw [clampElapsed]
    split
    · norm_num [MAX_FRAME_TIME]
    · exact he
  have hAE : 0 ≤ A + clampElapsed e := by linarith
  obtain ⟨h1, h2, h3⟩ := stepLoop_spec (A + clampElapsed e) hAE
  refine ⟨h1, h2, h3, div_nonneg h2 hS.le, (div_lt_one hS).mpr h3, ?_⟩
  rw [clampElapsed]
  split
  · exact le_refl MAX_FRAME_TIME
  · next hgt => exact le_of_not_lt hgt

/-- Witness for C5 at a concrete tick: accumulator 0, raw elapsed 1/30 of a
second (not clamped, two whole steps). -/
theorem c5_fixed_timestep_witness :
    ((tick 0 (1 / 30 : ℚ)).1 : ℤ)
        = ⌊((0 : ℚ) + clampElapsed (1 / 30)) / FIXED_TIME_STEP⌋ ∧
    0 ≤ (tick 0 (1 / 30 : ℚ)).2 ∧ (tick 0 (1 / 30 : ℚ)).2 < FIXED_TIME_STEP ∧
    0 ≤ (tick 0 (1 / 30 : ℚ)).2 / FIXED_TIME_STEP ∧
    (tick 0 (1 / 30 : ℚ)).2 / FIXED_TIME_STEP < 1 ∧
    clampElapsed (1 / 30) ≤ MAX_FRAME_TIME :=
  c5_fixed_timestep 0 (1 / 30) (by norm_num) (by norm_num)

end Wgltf
